import Mathlib

/-!
Verification development for the nano-context engine of the `ursula` repository.

The TypeScript sources are shallowly embedded: strings are Lean `String`s
(lists of characters), JS `number` date values (`Date.getTime()`) are `Int`
epoch milliseconds, JS 32-bit integer arithmetic is `Int` with explicit
wrapping, float ratios are modelled exactly in `ℚ`, fallible code returns
`Except`/`Option`, and the mutable `localStorage`-backed maps are
insertion-ordered association lists (`List (String × _)`), matching the
enumeration order of string-keyed JS objects.
-/

namespace Ursula

/-! ### JS string primitives (shared by `jaccard-similarity.ts` and others) -/

/-- The characters treated as whitespace by the JS `\s` class and `trim`
(ASCII portion plus NBSP; the embedding assumes inputs over these). -/
def jsIsSpace (c : Char) : Bool :=
  c = ' ' || c = '\t' || c = '\n' || c = '\r' ||
  c = Char.ofNat 11 || c = Char.ofNat 12 || c = Char.ofNat 0xa0

/-- The JS `\w` class: `[A-Za-z0-9_]`. -/
def jsIsWordChar (c : Char) : Bool :=
  ('a' ≤ c && c ≤ 'z') || ('A' ≤ c && c ≤ 'Z') || ('0' ≤ c && c ≤ '9') || c = '_'

/-- ASCII lowercasing, as `String.prototype.toLowerCase` acts on ASCII. -/
def jsToLower (c : Char) : Char :=
  if 'A' ≤ c && c ≤ 'Z' then Char.ofNat (c.toNat + 32) else c

/-- Replace each maximal run of characters satisfying `p` by a single space:
the effect of `.replace(/[class]+/g, ' ')`. -/
def replaceRuns (p : Char → Bool) : List Char → List Char
  | [] => []
  | [c] => [if p c then ' ' else c]
  | c :: d :: rest =>
    if p c && p d then replaceRuns p (d :: rest)
    else (if p c then ' ' else c) :: replaceRuns p (d :: rest)

/-- `String.prototype.trim` on a character list. -/
def trimList (l : List Char) : List Char :=
  ((l.dropWhile jsIsSpace).reverse.dropWhile jsIsSpace).reverse

/-- `String.prototype.trim`. -/
def jsTrim (s : String) : String := String.mk (trimList s.data)

/-- JS `String.prototype.split` on a one-or-more character-class regex
(`/[class]+/`): pieces between maximal separator runs.  A leading (resp.
trailing) separator run contributes one leading (resp. trailing) empty
piece, and `"".split` yields `[""]`. -/
def jsSplitPlus (p : Char → Bool) (l : List Char) : List (List Char) :=
  match l with
  | [] => [[]]
  | c :: _ =>
    let pieces := (List.splitOnP p l).filter (fun w => w.length > 0)
    let pieces := if p c then [] :: pieces else pieces
    match l.getLast? with
    | some d => if p d then pieces ++ [[]] else pieces
    | none => pieces

/-! ### `src/lib/jaccard-similarity.ts` -/

/-- The `STOP_WORDS` set from `jaccard-similarity.ts`. -/
def STOP_WORDS : List String :=
  ["a", "an", "and", "are", "as", "at", "be", "by", "for", "from",
   "has", "he", "in", "is", "it", "its", "of", "on", "that", "the",
   "to", "was", "will", "with", "would", "could", "should", "can",
   "have", "had", "this", "these", "they", "them", "their", "there",
   "where", "when", "what", "who", "why", "how", "do", "does", "did",
   "been", "being", "but", "or", "not", "no", "yes", "if", "then"]

/-- The punctuation preserved by `normalizeText`
(regex class `[^\w\s.,!?;:'-]`, i.e. `.,!?;:'-` survive). -/
def normalizeKeep (c : Char) : Bool :=
  jsIsWordChar c || jsIsSpace c ||
  c = '.' || c = ',' || c = '!' || c = '?' || c = ';' || c = ':' ||
  c = Char.ofNat 39 || c = '-'

/-- `normalizeText`: lowercase, trim, collapse whitespace, replace characters
outside `[\w\s.,!?;:'-]` by spaces, collapse whitespace again, trim. -/
def normalizeText (text : String) : String :=
  let step1 := trimList (text.data.map jsToLower)
  let step2 := replaceRuns jsIsSpace step1
  let step3 := step2.map (fun c => if normalizeKeep c then c else ' ')
  let step4 := replaceRuns jsIsSpace step3
  String.mk (trimList step4)

/-- The separator class used by `tokenizeText` when splitting words:
`/[\s.,!?;:'"()-]+/`. -/
def tokenSep (c : Char) : Bool :=
  jsIsSpace c || c = '.' || c = ',' || c = '!' || c = '?' || c = ';' ||
  c = ':' || c = Char.ofNat 39 || c = Char.ofNat 34 || c = '(' || c = ')' || c = '-'

/-- The word filter of `tokenizeText`: length at least 2, not a stop word,
contains at least one `\w` character. -/
def tokenKeep (w : String) : Bool :=
  w.length ≥ 2 && !(STOP_WORDS.contains w) && w.data.any jsIsWordChar

/-- `tokenizeText`: normalize, sample every `sampleRate`-th word for texts over
10,000 normalized characters, split on separators, filter, deduplicate. -/
def tokenizeText (text : String) : Finset String :=
  let normalized := normalizeText text
  if normalized = "" then ∅
  else
    let textToProcess :=
      if normalized.length > 10000 then
        let sampleRate := max 1 (normalized.length / 5000)
        let words := jsSplitPlus tokenSep normalized.data
        let sampledWords :=
          ((List.range words.length).zip words).filterMap
            (fun iw => if iw.1 % sampleRate = 0 then some iw.2 else none)
        List.intercalate [' '] sampledWords
      else normalized.data
    (((jsSplitPlus tokenSep textToProcess).map String.mk).filter tokenKeep).toFinset

/-- `calculateJaccardSimilarity`, with the float result modelled exactly in
`ℚ`.  The `typeof` guard and `try`/`catch` of the source cannot fire for
genuine string inputs, over which the embedding is total. -/
def calculateJaccardSimilarity (text1 text2 : String) : ℚ :=
  if text1 = text2 then 1
  else
    let tokens1 := tokenizeText text1
    let tokens2 := tokenizeText text2
    if tokens1 = ∅ ∧ tokens2 = ∅ then 1
    else if tokens1 = ∅ ∨ tokens2 = ∅ then 0
    else ((tokens1 ∩ tokens2).card : ℚ) / ((tokens1 ∪ tokens2).card : ℚ)

/-- `isSignificantChange`. -/
def isSignificantChange (text1 text2 : String) (threshold : ℚ) : Bool :=
  calculateJaccardSimilarity text1 text2 < threshold

/-- Wrap an integer into the signed 32-bit range, as JS `x | 0` / `x & x`. -/
def toInt32 (n : Int) : Int := (n + 2 ^ 31) % 2 ^ 32 - 2 ^ 31

/-- One step of the rolling hash: `hash = ((hash << 5) - hash) + char` followed
by `hash = hash & hash` (coercion back to a 32-bit integer). -/
def hashStep (h : Int) (c : Char) : Int :=
  toInt32 (toInt32 (h * 32) - h + c.toNat)

/-- Digit characters of JS `Number.prototype.toString(36)`. -/
def base36Digit (n : Nat) : Char :=
  if n < 10 then Char.ofNat (48 + n) else Char.ofNat (97 + (n - 10))

/-- Base-36 digits of a natural number, most significant first (fuel-driven). -/
def toBase36Aux : Nat → Nat → List Char → List Char
  | 0, _, acc => acc
  | _ + 1, 0, acc => acc
  | fuel + 1, n, acc => toBase36Aux fuel (n / 36) (base36Digit (n % 36) :: acc)

/-- JS `Math.abs(hash).toString(36)` for a natural number. -/
def natToBase36 (n : Nat) : String :=
  if n = 0 then "0" else String.mk (toBase36Aux n n [])

/-- `createTextHash`: empty input short-circuits to `""` (the JS falsy guard),
otherwise the 32-bit rolling hash of the normalized text in base 36. -/
def createTextHash (text : String) : String :=
  if text = "" then ""
  else natToBase36 (((normalizeText text).data.foldl hashStep 0).natAbs)

/-! ### Data model (`src/types/ai-models.ts`)

`AIModel` keeps only the `id` field: it is the sole field the verified code
reads (compression stores `model.id`; decompression rebuilds a minimal
`{ id }` object). -/

structure AIModel where
  id : String
deriving DecidableEq, Repr

/-- `TextContext`.  `timestamp`/`lastUsed` are epoch milliseconds.
`keyArguments` and `confidence` are `Option`s because the records built by
`performContextGeneration`/`performContextGenerationDirect` omit both fields
(JS `undefined`), which is what claim C10 is about; a fully populated record
has them `some`. -/
structure TextContext where
  id : String
  textHash : String
  description : String
  tone : String
  intent : String
  keyArguments : Option (List String)
  model : AIModel
  timestamp : Int
  lastUsed : Int
  usageCount : Nat
  confidence : Option ℚ
  textLength : Nat
deriving DecidableEq, Repr

/-- `SimilarityThresholds` from `ai-models.ts`. -/
structure SimilarityThresholds where
  updateThreshold : ℚ
  cacheThreshold : ℚ
  significantChange : ℚ
  maxContexts : Nat
  contextExpiryMs : Int
deriving DecidableEq, Repr

/-- `NanoContextConfig`.  The service also reads `config.minTextLength`, a
field absent from the interface and the default object, so at runtime it is
`undefined` and the guard `text.length < undefined` is always false; the
embedding therefore has no such field and no such guard. -/
structure NanoContextConfig where
  thresholds : SimilarityThresholds
  enabled : Bool
  autoGenerate : Bool
  maxTextLength : Nat
  debounceMs : Int
deriving DecidableEq, Repr

/-- `DEFAULT_NANO_CONTEXT_CONFIG`. -/
def DEFAULT_NANO_CONTEXT_CONFIG : NanoContextConfig :=
  { thresholds :=
      { updateThreshold := 8 / 10
        cacheThreshold := 95 / 100
        significantChange := 5 / 10
        maxContexts := 100
        contextExpiryMs := 7 * 24 * 60 * 60 * 1000 }
    enabled := true
    autoGenerate := true
    maxTextLength := 10000
    debounceMs := 2000 }

/-- The `contexts` map (`Record<string, TextContext>`): an insertion-ordered
association list, as string-keyed JS objects enumerate. -/
abbrev Store := List (String × TextContext)

/-- Key lookup in the contexts map. -/
def lookupStore : Store → String → Option TextContext
  | [], _ => none
  | (k, v) :: rest, key => if k = key then some v else lookupStore rest key

/-- `newContexts[key] = value` after `{...prev}`: replace in place if the key
exists (JS objects keep the original insertion position), else append. -/
def upsertStore : Store → String → TextContext → Store
  | [], key, value => [(key, value)]
  | (k, v) :: rest, key, value =>
    if k = key then (key, value) :: rest else (k, v) :: upsertStore rest key value

/-! ### `useNanoContext` hook (context store with LRU eviction) -/

/-- The ascending comparator of `addContext`/`performEmergencyCleanup`:
`lastUsed` first, ties by `usageCount`.  `contextLe a b` holds when the JS
comparator returns `≤ 0` on `(a, b)`, so a stable sort by `contextLe`
reproduces `entries.sort(comparator)`. -/
def contextLe (a b : String × TextContext) : Bool :=
  a.2.lastUsed < b.2.lastUsed ||
  (a.2.lastUsed = b.2.lastUsed && a.2.usageCount ≤ b.2.usageCount)

/-- The strict version of the eviction ordering on records. -/
def contextLt (a b : TextContext) : Prop :=
  a.lastUsed < b.lastUsed ∨ (a.lastUsed = b.lastUsed ∧ a.usageCount < b.usageCount)

/-- Two store entries carry distinct `(lastUsed, usageCount)` sort keys. -/
def pairDistinct (a b : String × TextContext) : Prop :=
  (a.2.lastUsed, a.2.usageCount) ≠ (b.2.lastUsed, b.2.usageCount)

instance (a b : String × TextContext) : Decidable (pairDistinct a b) := by
  unfold pairDistinct; infer_instance

instance (a b : TextContext) : Decidable (contextLt a b) := by
  unfold contextLt; infer_instance

/-- JS `array.slice(-k)`: the last `k` elements, or the whole array when
`k = 0` (because `-0 === 0`) or `k ≥ length`. -/
def jsSliceNeg (l : List α) (k : Nat) : List α :=
  if k = 0 then l else l.drop (l.length - k)

/-- The record actually stored by `addContext`: `lastUsed` is refreshed to the
call time and `usageCount` is reset to 0. -/
def putRecord (now : Int) (context : TextContext) : TextContext :=
  { context with lastUsed := now, usageCount := 0 }

/-- `addContext` from the `useNanoContext` hook: insert/replace at
`context.textHash`, then, if the count exceeds `maxContexts`, stably sort
ascending by `(lastUsed, usageCount)` and keep the last `maxContexts`
entries. -/
def addContext (maxContexts : Nat) (now : Int) (store : Store) (context : TextContext) : Store :=
  let newContexts := upsertStore store context.textHash (putRecord now context)
  if newContexts.length > maxContexts then
    jsSliceNeg (newContexts.mergeSort contextLe) maxContexts
  else newContexts

/-- `getContext` from the `useNanoContext` hook: no TTL check; bumps
`lastUsed`/`usageCount` in the stored map but returns the pre-update record
object. -/
def hookGetContext (now : Int) (contexts : Store) (textHash : String) :
    Option TextContext × Store :=
  match lookupStore contexts textHash with
  | none => (none, contexts)
  | some context =>
    (some context,
     upsertStore contexts textHash
       { context with lastUsed := now, usageCount := context.usageCount + 1 })

/-! ### `context-compression.ts` -/

/-- `CompressedContext`.  `c` mirrors the stored confidence: `none` stands for
the `NaN` produced when the source record has no `confidence` field. -/
structure CompressedContext where
  v : Nat
  h : String
  d : String
  t : String
  i : String
  a : List String
  m : String
  ts : Int
  lu : Int
  u : Nat
  c : Option ℚ
  l : Nat
deriving DecidableEq, Repr

/-- `TONE_ABBREVIATIONS`. -/
def TONE_ABBREVIATIONS : List (String × String) :=
  [("formal", "f"), ("casual", "c"), ("technical", "t"), ("creative", "cr"),
   ("persuasive", "p"), ("academic", "a"), ("professional", "pr"),
   ("friendly", "fr"), ("neutral", "n"), ("conversational", "co")]

/-- `INTENT_ABBREVIATIONS`. -/
def INTENT_ABBREVIATIONS : List (String × String) :=
  [("general purpose text", "g"), ("documentation", "d"), ("explanation", "e"),
   ("instruction", "i"), ("description", "de"), ("analysis", "a"),
   ("summary", "s"), ("proposal", "p"), ("report", "r"), ("email", "em"),
   ("article", "ar"), ("blog post", "b")]

/-- `Map.get` on an association list. -/
def mapGet (m : List (String × String)) (key : String) : Option String :=
  (m.find? (fun p => p.1 = key)).map Prod.snd

/-- The reverse (expansion) mappings. -/
def TONE_EXPANSIONS : List (String × String) := TONE_ABBREVIATIONS.map (fun p => (p.2, p.1))

def INTENT_EXPANSIONS : List (String × String) := INTENT_ABBREVIATIONS.map (fun p => (p.2, p.1))

/-- JS `lastIndexOf` accumulator: scans left to right keeping the latest hit. -/
def lastIdxAux (c : Char) : List Char → Nat → Int → Int
  | [], _, best => best
  | x :: xs, i, best => lastIdxAux c xs (i + 1) (if x = c then (i : Int) else best)

/-- `String.prototype.lastIndexOf` for a single character: −1 when absent. -/
def jsLastIndexOf (l : List Char) (c : Char) : Int := lastIdxAux c l 0 (-1)

/-- `truncateDescription`: identity up to 150 characters; otherwise prefer the
last sentence end after position 100, then the last space after position 100
(with an ellipsis), and finally a hard 150-character cut with an ellipsis. -/
def truncateDescription (description : String) : String :=
  if description.length ≤ 150 then description
  else
    if 100 < max (jsLastIndexOf (description.data.take 150) '.')
        (max (jsLastIndexOf (description.data.take 150) '!')
          (jsLastIndexOf (description.data.take 150) '?')) then
      String.mk ((description.data.take 150).take
        ((max (jsLastIndexOf (description.data.take 150) '.')
          (max (jsLastIndexOf (description.data.take 150) '!')
            (jsLastIndexOf (description.data.take 150) '?'))).toNat + 1))
    else
      if 100 < jsLastIndexOf (description.data.take 150) ' ' then
        String.mk ((description.data.take 150).take
          (jsLastIndexOf (description.data.take 150) ' ').toNat) ++ "..."
      else String.mk (description.data.take 150) ++ "..."

/-- JS `Math.round(x * 100) / 100` (round half toward +∞). -/
def round2 (q : ℚ) : ℚ := (⌊q * 100 + 1 / 2⌋ : ℚ) / 100

/-- `compressContext`.  When `keyArguments` is absent (the records the service
builds), `context.keyArguments.slice(0, 3)` throws a `TypeError`, which the
source rethrows; this is the `Except.error` branch. -/
def compressContext (context : TextContext) : Except String CompressedContext :=
  match context.keyArguments with
  | none => .error "TypeError: cannot read slice of undefined keyArguments"
  | some args =>
    .ok
      { v := 1
        h := context.textHash.take 12
        d := truncateDescription context.description
        t := (mapGet TONE_ABBREVIATIONS context.tone).getD (context.tone.take 3)
        i := (mapGet INTENT_ABBREVIATIONS context.intent).getD (context.intent.take 3)
        a := (args.take 3).map (fun arg => arg.take 30)
        m := context.model.id
        ts := context.timestamp
        lu := context.lastUsed
        u := context.usageCount
        c := context.confidence.map round2
        l := context.textLength }

/-- `decompressContext`: rebuilds a full record, with the caller-supplied full
hash, dictionary expansion, and a minimal `{ id }` model object. -/
def decompressContext (compressed : CompressedContext) (fullTextHash : String) : TextContext :=
  { id := "ctx-" ++ toString compressed.ts ++ "-" ++ compressed.h
    textHash := fullTextHash
    description := compressed.d
    tone := (mapGet TONE_EXPANSIONS compressed.t).getD compressed.t
    intent := (mapGet INTENT_EXPANSIONS compressed.i).getD compressed.i
    keyArguments := some compressed.a
    model := { id := compressed.m }
    timestamp := compressed.ts
    lastUsed := compressed.lu
    usageCount := compressed.u
    confidence := compressed.c
    textLength := compressed.l }

/-- `compressContextBatch`: compress each entry, silently skipping any record
whose compression throws; the batch itself never fails. -/
def compressContextBatch (contexts : List (String × TextContext)) :
    List (String × CompressedContext) :=
  contexts.filterMap (fun kv =>
    match compressContext kv.2 with
    | .ok compressed => some (kv.1, compressed)
    | .error _ => none)

/-! ### `nano-context-service.ts` -/

/-- `isCacheValid`: a record is valid while its age is below the TTL. -/
def isCacheValid (config : NanoContextConfig) (now : Int) (context : TextContext) : Bool :=
  now - context.timestamp < config.thresholds.contextExpiryMs

/-- `getContextForText`: TTL-checked read of the `localStorage` map.  On a
valid hit it bumps `lastUsed`/`usageCount`, fire-and-forget persists the
updated record under its own `textHash`, and returns the updated copy;
expired or missing records yield `none` and leave the map untouched. -/
def getContextForText (config : NanoContextConfig) (now : Int) (store : Store)
    (textHash : String) : Option TextContext × Store :=
  match lookupStore store textHash with
  | none => (none, store)
  | some storedContext =>
    if isCacheValid config now storedContext then
      let updated :=
        { storedContext with lastUsed := now, usageCount := storedContext.usageCount + 1 }
      (some updated, upsertStore store updated.textHash updated)
    else (none, store)

/-- The parsed shape `parseContextResponse` extracts from an AI response. -/
structure ParsedCtx where
  description : String
  tone : String
  intent : String
deriving DecidableEq, Repr

/-- The result shape of `aiService.sendToAI`. -/
structure AIResponse where
  error : Option String
  suggestedText : String
  actualModel : Option AIModel
deriving DecidableEq, Repr

/-- The record `performContextGeneration` constructs on success (service
lines 357–368): note the missing `keyArguments` and `confidence` fields. -/
def performContextGenerationRecord (freshId : String) (now : Int) (textHash : String)
    (parsed : ParsedCtx) (modelUsed : AIModel) (textLength : Nat) : TextContext :=
  { id := freshId
    textHash := textHash
    description := parsed.description
    tone := parsed.tone
    intent := parsed.intent
    keyArguments := none
    model := modelUsed
    timestamp := now
    lastUsed := now
    usageCount := 0
    confidence := none
    textLength := textLength }

/-- The transient state of `NanoContextService`: the `localStorage` contexts
map, the in-flight `generationQueue` (cache key to an abstract promise id),
a fresh-id counter, and the log of `sendToAI` invocations (text and model),
newest first. -/
structure ServiceState where
  contexts : Store
  queue : List (String × Nat)
  nextId : Nat
  externalCalls : List (String × AIModel)
deriving DecidableEq, Repr

/-- `generationQueue.get`. -/
def lookupQueue : List (String × Nat) → String → Option Nat
  | [], _ => none
  | (k, v) :: rest, key => if k = key then some v else lookupQueue rest key

/-- Outcome of the synchronous section of `generateContextForText` (the code
up to the first `await`). -/
inductive StepOutcome where
  | rejected
  | largeText
  | cacheHit (context : TextContext)
  | coalesced (pid : Nat)
  | started (pid : Nat)
deriving DecidableEq, Repr

/-- The synchronous section of `generateContextForText`: the guard chain,
the `localStorage` cache probe (with its usage-tracking side effect), the
request-coalescing probe of `generationQueue`, and — when a new generation
starts — the synchronous prefix of `performContextGeneration`, which issues
the external `sendToAI` call and registers the in-flight promise before the
first suspension point. -/
def generateContextForTextStep (config : NanoContextConfig)
    (isInitialized compatibilityChecked : Bool) (now : Int) (text : String)
    (model? : Option AIModel) (st : ServiceState) : StepOutcome × ServiceState :=
  if !isInitialized || !config.enabled then (.rejected, st)
  else if !compatibilityChecked then (.rejected, st)
  else if jsTrim text = "" then (.rejected, st)
  else
    match model? with
    | none => (.rejected, st)
    | some model =>
      -- `text.length < this.config.minTextLength` compares with `undefined`
      -- and is always false (no `minTextLength` in the config type).
      if text.length > config.maxTextLength then (.largeText, st)
      else
        let textHash := createTextHash text
        let cacheKey := textHash ++ "-" ++ model.id
        let afterCache :=
          fun (st : ServiceState) =>
            match lookupQueue st.queue cacheKey with
            | some pid => (StepOutcome.coalesced pid, st)
            | none =>
              (StepOutcome.started st.nextId,
               { st with
                  queue := (cacheKey, st.nextId) :: st.queue
                  nextId := st.nextId + 1
                  externalCalls := (text, model) :: st.externalCalls })
        match lookupStore st.contexts textHash with
        | some storedContext =>
          if isCacheValid config now storedContext then
            let updated :=
              { storedContext with
                  lastUsed := now, usageCount := storedContext.usageCount + 1 }
            (.cacheHit updated,
             { st with contexts := upsertStore st.contexts updated.textHash updated })
          else afterCache st
        | none => afterCache st

/-- `buildContextGenerationPrompt` (the JSON braces of the template are
escaped for the embedding). -/
def buildContextGenerationPrompt (text : String) : String :=
  "Analyze the following text and generate a concise context description that will be useful for future AI refinement requests.\n\nYour response should capture:\n1. Overall tone and style (formal, casual, technical, creative, etc.)\n2. Primary intent or purpose of the text\n3. Any notable characteristics that would help with text refinement\n\nProvide your analysis in the following JSON format:\n\x7b\n  \"description\": \"A comprehensive 80-120 word description that captures the essence, tone, and key points of the text for use in future refinement contexts\",\n  \"tone\": \"primary tone (formal/casual/technical/creative/persuasive/etc.)\",\n  \"intent\": \"main purpose or goal of the text\"\n\x7d\n\nText to analyze:\n\"\"\"\n" ++ jsTrim text ++ "\n\"\"\"\n\nRespond with only the JSON object, no additional text."

/-- `smartTruncateText`: keep the first 60% and last 40% of the available
budget around a truncation marker (floors modelled in exact arithmetic). -/
def smartTruncateText (text : String) (maxLength : Nat) : String :=
  if text.length ≤ maxLength then text
  else
    let truncationMessage := "\n\n[... content truncated ...]\n\n"
    if maxLength ≤ truncationMessage.length then text.take maxLength
    else
      let availableLength := maxLength - truncationMessage.length
      let startLength := availableLength * 6 / 10
      let endLength := availableLength * 4 / 10
      let startPart := text.take startLength
      let endPart := String.mk (text.data.drop (text.length - endLength))
      startPart ++ truncationMessage ++ endPart

/-- `performContextGenerationDirect`: generate from the truncated view but
stamp the record with the original hash and original length, and annotate the
description.  `sendToAI` and `parseContextResponse` (whose body wraps the
host `JSON.parse`) are abstracted as function parameters. -/
def performContextGenerationDirect (sendToAI : String → String → AIModel → AIResponse)
    (parseResponse : String → Option ParsedCtx) (freshId : String) (now : Int)
    (truncatedText : String) (originalTextHash : String) (model : AIModel)
    (originalTextLength : Nat) : Option TextContext :=
  let response := sendToAI truncatedText (buildContextGenerationPrompt truncatedText) model
  match response.error with
  | some _ => none
  | none =>
    match parseResponse response.suggestedText with
    | none => none
    | some parsedContext =>
      some
        { id := freshId
          textHash := originalTextHash
          description := parsedContext.description ++ " (generated from truncated large text)"
          tone := parsedContext.tone
          intent := parsedContext.intent
          keyArguments := none
          model := response.actualModel.getD model
          timestamp := now
          lastUsed := now
          usageCount := 0
          confidence := none
          textLength := originalTextLength }

/-- `generationQueue.delete`. -/
def removeQueue : List (String × Nat) → String → List (String × Nat)
  | [], _ => []
  | (k, v) :: rest, key => if k = key then removeQueue rest key else (k, v) :: removeQueue rest key

/-- Outcome of a completed `generateContextForLargeText` call. -/
inductive LargeOutcome where
  | cacheHit (context : TextContext)
  | coalesced (pid : Nat)
  | generated (result : Option TextContext)
deriving DecidableEq, Repr

/-- `generateContextForLargeText`, run to completion by a single caller:
truncate, key by the hash of the original text, probe cache and in-flight
queue, otherwise generate directly from the truncated view, persist a
successful record under the original hash, and clear the queue entry. -/
def generateContextForLargeText (sendToAI : String → String → AIModel → AIResponse)
    (parseResponse : String → Option ParsedCtx) (freshId : String)
    (config : NanoContextConfig) (now : Int) (text : String) (model : AIModel)
    (st : ServiceState) : LargeOutcome × ServiceState :=
  let truncatedText := smartTruncateText text config.maxTextLength
  let originalTextHash := createTextHash text
  let cacheKey := originalTextHash ++ "-" ++ model.id
  let generate :=
    fun (st : ServiceState) =>
      match lookupQueue st.queue cacheKey with
      | some pid => (LargeOutcome.coalesced pid, st)
      | none =>
        let started :=
          { st with
              queue := (cacheKey, st.nextId) :: st.queue
              nextId := st.nextId + 1
              externalCalls := (truncatedText, model) :: st.externalCalls }
        let result :=
          performContextGenerationDirect sendToAI parseResponse freshId now
            truncatedText originalTextHash model text.length
        match result with
        | some context =>
          (LargeOutcome.generated (some context),
           { started with
              contexts := upsertStore started.contexts context.textHash context
              queue := removeQueue started.queue cacheKey })
        | none =>
          (LargeOutcome.generated none, { started with queue := removeQueue started.queue cacheKey })
  match lookupStore st.contexts originalTextHash with
  | some storedContext =>
    if isCacheValid config now storedContext then
      let updated :=
        { storedContext with lastUsed := now, usageCount := storedContext.usageCount + 1 }
      (.cacheHit updated,
       { st with contexts := upsertStore st.contexts updated.textHash updated })
    else generate st
  | none => generate st

/-! ### `enhanced-prompt-builder.ts` -/

/-- Character class `[\r\n\t]` used when sanitizing descriptions. -/
def crlfTab (c : Char) : Bool := c = '\r' || c = '\n' || c = '\t'

/-- `formatContextForPrompt`: `"Context: …"`, `"Tone: …"` (skipped for
`neutral`/`general`), `"Purpose: …"` (skipped for the generic placeholder),
joined by `" | "`. -/
def formatContextForPrompt (context : TextContext) : String :=
  let parts : List String := []
  let parts :=
    if context.description ≠ "" then
      let sanitizedDescription := String.mk (replaceRuns crlfTab (jsTrim context.description).data)
      if sanitizedDescription.length > 0 then parts ++ ["Context: " ++ sanitizedDescription]
      else parts
    else parts
  let parts :=
    if context.tone ≠ "" ∧ context.tone ≠ "neutral" ∧ context.tone ≠ "general" then
      let sanitizedTone := String.mk ((jsTrim context.tone).data.map jsToLower)
      if sanitizedTone.length > 0 then parts ++ ["Tone: " ++ sanitizedTone] else parts
    else parts
  let parts :=
    if context.intent ≠ "" ∧ context.intent ≠ "general purpose text" then
      let sanitizedIntent := jsTrim context.intent
      if sanitizedIntent.length > 0 then parts ++ ["Purpose: " ++ sanitizedIntent] else parts
    else parts
  String.intercalate " | " parts

/-- The fixed tail appended after the formatted context block. -/
def backgroundContextBlock (formattedContext : String) : String :=
  "\n\nBACKGROUND CONTEXT:\n" ++ formattedContext ++
  "\n\nPlease consider this context when refining the text to maintain consistency with the overall tone, purpose, and key themes."

/-- `buildContextAwarePrompt` (its `_text` argument is unused by the source). -/
def buildContextAwarePrompt (originalPrompt : String) (context : Option TextContext) : String :=
  if originalPrompt = "" then originalPrompt
  else
    match context with
    | none => originalPrompt
    | some context =>
      let formattedContext := formatContextForPrompt context
      if formattedContext = "" ∨ (jsTrim formattedContext).length = 0 then originalPrompt
      else originalPrompt ++ backgroundContextBlock formattedContext

/-- `isContextSuitableForPrompts`: description at least 20 characters and not
both tone and intent at their generic placeholder values. -/
def isContextSuitableForPrompts (context : Option TextContext) : Bool :=
  match context with
  | none => false
  | some context =>
    if context.description = "" ∨ context.description.length < 20 then false
    else if context.tone = "neutral" ∧ context.intent = "general purpose text" then false
    else true

/-- JS `summary.includes(intent)`: substring test. -/
def strIncludes (s sub : String) : Prop := sub.data <:+: s.data

instance (s sub : String) : Decidable (strIncludes s sub) := by
  unfold strIncludes; infer_instance

/-- `createContextSummary`: tone (when not `neutral`), then intent (when not
already a substring), truncated to `maxLength`. -/
def createContextSummary (context : Option TextContext) (maxLength : Nat) : String :=
  match context with
  | none => ""
  | some context =>
    let summary := if context.tone ≠ "" ∧ context.tone ≠ "neutral" then context.tone else ""
    let summary :=
      if context.intent ≠ "" ∧ ¬ strIncludes summary context.intent then
        if summary ≠ "" then summary ++ ", " ++ context.intent else context.intent
      else summary
    if summary.length > maxLength then (summary.take (maxLength - 3)) ++ "..." else summary

/-- `enhanceCustomPrompt`: gated by the suitability check, appending a light
"Note:" suffix rather than the structural block. -/
def enhanceCustomPrompt (userPrompt : String) (context : Option TextContext) : String :=
  if userPrompt = "" ∨ isContextSuitableForPrompts context = false then userPrompt
  else
    let contextSummary := createContextSummary context 100
    if contextSummary = "" then userPrompt
    else userPrompt ++ "\n\nNote: This text has the following characteristics: " ++ contextSummary

/-! ### Concrete sample values used by witnesses and counterexamples -/

/-- A sample model. -/
def sampleModel : AIModel := { id := "gpt" }

/-- A fully populated sample record over the given key fields. -/
def mkRecord (hash : String) (timestamp lastUsed : Int) (usageCount : Nat) : TextContext :=
  { id := "ctx-1"
    textHash := hash
    description := "a sample description of the text"
    tone := "formal"
    intent := "documentation"
    keyArguments := some ["arg"]
    model := sampleModel
    timestamp := timestamp
    lastUsed := lastUsed
    usageCount := usageCount
    confidence := some 1
    textLength := 5 }

/-- The default configuration with a 3-character `maxTextLength`, used to
exercise the large-text path on short concrete inputs. -/
def smallConfig : NanoContextConfig :=
  { DEFAULT_NANO_CONTEXT_CONFIG with maxTextLength := 3 }

/-- Allowed boundary for the description cut that claim C6 asserts: the kept
prefix `p` of the original description `d` ends at a sentence mark, or the
character of `d` right after the cut is not a word character (so the cut is
not mid-word). -/
def boundaryCutAtB (d : String) (p : List Char) : Bool :=
  (['.', '!', '?'].any (fun c => p.getLast? = some c)) ||
  (match d.data[p.length]? with
   | some c => ! jsIsWordChar c
   | none => true)

/-- The description shapes claim C6 allows after a round trip: the original
itself, a boundary-cut prefix, or a boundary-cut prefix followed by the
ellipsis marker. -/
def claimedDescriptionCut (d res : String) : Prop :=
  res = d ∨
  (res.data <+: d.data ∧ ¬ res = "" ∧ boundaryCutAtB d res.data = true) ∨
  (3 ≤ res.data.length ∧ res.data.drop (res.data.length - 3) = ['.', '.', '.'] ∧
   (res.data.take (res.data.length - 3)) <+: d.data ∧
   boundaryCutAtB d (res.data.take (res.data.length - 3)) = true)

instance (d res : String) : Decidable (claimedDescriptionCut d res) := by
  unfold claimedDescriptionCut; infer_instance

/-- An all-empty compressed record, used as a concrete probe value. -/
def emptyCompressed : CompressedContext :=
  { v := 1, h := "", d := "", t := "", i := "", a := [], m := "", ts := 0, lu := 0,
    u := 0, c := none, l := 0 }

/-! ## Claims -/

/-! ### C1: the Jaccard similarity contract -/

theorem calc_symm (a b : String) :
    calculateJaccardSimilarity a b = calculateJaccardSimilarity b a := by
  unfold calculateJaccardSimilarity
  by_cases hab : a = b
  · subst hab; simp
  · have hba : ¬ b = a := fun h => hab h.symm
    by_cases h1 : tokenizeText a = ∅ <;> by_cases h2 : tokenizeText b = ∅ <;>
      simp [hab, hba, h1, h2, Finset.inter_comm, Finset.union_comm]

theorem calc_ratio (a b : String) (hA : tokenizeText a ≠ ∅) (hB : tokenizeText b ≠ ∅) :
    calculateJaccardSimilarity a b =
      ((tokenizeText a ∩ tokenizeText b).card : ℚ) /
        ((tokenizeText a ∪ tokenizeText b).card : ℚ) := by
  by_cases hab : a = b
  · subst hab
    rw [Finset.inter_self, Finset.union_self]
    have hpos : (0 : ℚ) < ((tokenizeText a).card : ℚ) := by
      exact_mod_cast Finset.card_pos.mpr (Finset.nonempty_iff_ne_empty.mpr hA)
    simp [calculateJaccardSimilarity, div_self (ne_of_gt hpos)]
  · simp [calculateJaccardSimilarity, hab, hA, hB]

theorem calc_both_empty (a b : String) (h1 : tokenizeText a = ∅) (h2 : tokenizeText b = ∅) :
    calculateJaccardSimilarity a b = 1 := by
  by_cases hab : a = b
  · simp [calculateJaccardSimilarity, hab]
  · simp [calculateJaccardSimilarity, hab, h1, h2]

theorem calc_one_empty (a b : String)
    (h : (tokenizeText a = ∅ ∧ tokenizeText b ≠ ∅) ∨ (tokenizeText a ≠ ∅ ∧ tokenizeText b = ∅)) :
    calculateJaccardSimilarity a b = 0 := by
  have hab : ¬ a = b := by
    rintro rfl
    rcases h with ⟨h1, h2⟩ | ⟨h1, h2⟩
    · exact h2 h1
    · exact h1 h2
  rcases h with ⟨h1, h2⟩ | ⟨h1, h2⟩ <;> simp [calculateJaccardSimilarity, hab, h1, h2]

theorem calc_bounds (a b : String) :
    0 ≤ calculateJaccardSimilarity a b ∧ calculateJaccardSimilarity a b ≤ 1 := by
  by_cases h1 : tokenizeText a = ∅ <;> by_cases h2 : tokenizeText b = ∅
  · rw [calc_both_empty a b h1 h2]; norm_num
  · rw [calc_one_empty a b (Or.inl ⟨h1, h2⟩)]; norm_num
  · rw [calc_one_empty a b (Or.inr ⟨h1, h2⟩)]; norm_num
  · rw [calc_ratio a b h1 h2]
    have hpos : (0 : ℚ) < ((tokenizeText a ∪ tokenizeText b).card : ℚ) := by
      have hne : (tokenizeText a ∪ tokenizeText b).Nonempty := by
        rcases Finset.nonempty_iff_ne_empty.mpr h1 with ⟨x, hx⟩
        exact ⟨x, Finset.mem_union_left _ hx⟩
      exact_mod_cast Finset.card_pos.mpr hne
    refine ⟨div_nonneg (by exact_mod_cast Nat.zero_le _) hpos.le, ?_⟩
    rw [div_le_one hpos]
    exact_mod_cast Finset.card_le_card Finset.inter_subset_union

/-- C1: `calculateJaccardSimilarity` is total on strings and symmetric, its
value lies in `[0,1]`; it is 1 on identical strings and when both token sets
are empty, 0 when exactly one token set is empty, and otherwise the Jaccard
ratio `|A ∩ B| / |A ∪ B|` of the two token sets (any internal fault of the
source is caught and mapped to 0; in the embedding the function is total by
construction). -/
theorem jaccard_similarity_contract :
    (∀ a b, calculateJaccardSimilarity a b = calculateJaccardSimilarity b a) ∧
    (∀ a b, 0 ≤ calculateJaccardSimilarity a b ∧ calculateJaccardSimilarity a b ≤ 1) ∧
    (∀ a b, a = b → calculateJaccardSimilarity a b = 1) ∧
    (∀ a b, tokenizeText a = ∅ → tokenizeText b = ∅ → calculateJaccardSimilarity a b = 1) ∧
    (∀ a b, (tokenizeText a = ∅ ∧ tokenizeText b ≠ ∅) ∨
        (tokenizeText a ≠ ∅ ∧ tokenizeText b = ∅) → calculateJaccardSimilarity a b = 0) ∧
    (∀ a b, tokenizeText a ≠ ∅ → tokenizeText b ≠ ∅ →
      calculateJaccardSimilarity a b =
        ((tokenizeText a ∩ tokenizeText b).card : ℚ) /
          ((tokenizeText a ∪ tokenizeText b).card : ℚ)) :=
  ⟨calc_symm, calc_bounds,
   fun a _ hab => by subst hab; simp [calculateJaccardSimilarity],
   calc_both_empty, calc_one_empty, calc_ratio⟩

/-- Witness for C1 at concrete inputs. -/
theorem jaccard_similarity_contract_witness :
    (tokenizeText "cat dog" ≠ ∅ ∧ tokenizeText "cat fish" ≠ ∅) ∧
    calculateJaccardSimilarity "cat dog" "cat fish" =
      ((tokenizeText "cat dog" ∩ tokenizeText "cat fish").card : ℚ) /
        ((tokenizeText "cat dog" ∪ tokenizeText "cat fish").card : ℚ) :=
  ⟨⟨by decide, by decide⟩,
   jaccard_similarity_contract.2.2.2.2.2 "cat dog" "cat fish" (by decide) (by decide)⟩

/-! ### C5: fingerprint determinism over normalized text -/

/-- C5 counterexample: `""` and `" "` have the same normalized text but
different fingerprints — the falsy-input guard returns `""` for the empty
string while `" "` hashes its empty normalization to `"0"`. -/
theorem createTextHash_determinism_counterexample :
    normalizeText "" = normalizeText " " ∧ createTextHash "" ≠ createTextHash " " := by
  constructor
  · decide
  · decide

/-- C5 (amended): for non-empty inputs the fingerprint is a deterministic
function of the normalized text alone. -/
theorem createTextHash_normalized_deterministic (a b : String)
    (ha : a ≠ "") (hb : b ≠ "") (h : normalizeText a = normalizeText b) :
    createTextHash a = createTextHash b := by
  unfold createTextHash
  rw [if_neg ha, if_neg hb, h]

/-- Witness for C5 at concrete inputs. -/
theorem createTextHash_normalized_deterministic_witness :
    ("The Cat" ≠ "" ∧ "the  cat" ≠ "" ∧ normalizeText "The Cat" = normalizeText "the  cat") ∧
    createTextHash "The Cat" = createTextHash "the  cat" :=
  ⟨⟨by decide, by decide, by decide⟩,
   createTextHash_normalized_deterministic "The Cat" "the  cat" (by decide) (by decide) (by decide)⟩

/-! ### C3: TTL semantics of the store reads -/

theorem lookupStore_upsert_self (store : Store) (key : String) (value : TextContext) :
    lookupStore (upsertStore store key value) key = some value := by
  induction store with
  | nil => simp [upsertStore, lookupStore]
  | cons kv rest ih =>
    by_cases hk : kv.1 = key
    · simp [upsertStore, hk, lookupStore]
    · simp only [upsertStore]
      rw [if_neg hk]
      simp only [lookupStore]
      rw [if_neg hk]
      exact ih

/-- C3 counterexample: the hook-level `getContext` performs no TTL check;
a record whose age equals the default 7-day `contextExpiryMs` is still
returned (not absent). -/
theorem hookGetContext_expired_counterexample :
    DEFAULT_NANO_CONTEXT_CONFIG.thresholds.contextExpiryMs ≤
      604800000 - (mkRecord "h" 0 0 0).timestamp ∧
    (hookGetContext 604800000 [("h", mkRecord "h" 0 0 0)] "h").1 = some (mkRecord "h" 0 0 0) := by
  constructor
  · decide
  · decide

/-- C3 (amended): the service-level `getContextForText` reports a record whose
age is at least `contextExpiryMs` as absent while leaving it physically
stored, and on a valid hit increments `usageCount`, refreshes `lastUsed`, and
both returns and persists the updated copy; the hook-level `getContext`
applies no TTL check — it returns the stored record as is (expired or not)
while bumping `lastUsed`/`usageCount` in the stored map. -/
theorem getContext_ttl_contract (config : NanoContextConfig) (now : Int) (store : Store)
    (hash : String) (c : TextContext) (hc : lookupStore store hash = some c)
    (hkey : c.textHash = hash) :
    (config.thresholds.contextExpiryMs ≤ now - c.timestamp →
      (getContextForText config now store hash).1 = none ∧
      lookupStore (getContextForText config now store hash).2 hash = some c) ∧
    (now - c.timestamp < config.thresholds.contextExpiryMs →
      (getContextForText config now store hash).1 =
        some { c with lastUsed := now, usageCount := c.usageCount + 1 } ∧
      lookupStore (getContextForText config now store hash).2 hash =
        some { c with lastUsed := now, usageCount := c.usageCount + 1 }) ∧
    ((hookGetContext now store hash).1 = some c ∧
      lookupStore (hookGetContext now store hash).2 hash =
        some { c with lastUsed := now, usageCount := c.usageCount + 1 }) := by
  refine ⟨?_, ?_, ?_, ?_⟩
  · intro hexp
    have hvalid : isCacheValid config now c = false := by
      simp only [isCacheValid, decide_eq_false_iff_not, not_lt]
      exact hexp
    simp [getContextForText, hc, hvalid]
  · intro hval
    have hvalid : isCacheValid config now c = true := by
      simp only [isCacheValid, decide_eq_true_eq]
      exact hval
    constructor
    · simp [getContextForText, hc, hvalid]
    · simp only [getContextForText, hc, hvalid, if_true]
      have : ({ c with lastUsed := now, usageCount := c.usageCount + 1 } : TextContext).textHash = hash := hkey
      rw [this]
      exact lookupStore_upsert_self store hash _
  · simp [hookGetContext, hc]
  · simp only [hookGetContext, hc]
    exact lookupStore_upsert_self store hash _

/-- Witness for C3 at concrete inputs (an expired and a valid read). -/
theorem getContext_ttl_contract_witness :
    ((getContextForText DEFAULT_NANO_CONTEXT_CONFIG 604800000
        [("h", mkRecord "h" 0 0 0)] "h").1 = none ∧
      lookupStore (getContextForText DEFAULT_NANO_CONTEXT_CONFIG 604800000
        [("h", mkRecord "h" 0 0 0)] "h").2 "h" = some (mkRecord "h" 0 0 0)) ∧
    (getContextForText DEFAULT_NANO_CONTEXT_CONFIG 10
        [("h", mkRecord "h" 0 0 0)] "h").1 =
      some { mkRecord "h" 0 0 0 with lastUsed := 10, usageCount := 1 } := by
  refine ⟨(getContext_ttl_contract DEFAULT_NANO_CONTEXT_CONFIG 604800000
      [("h", mkRecord "h" 0 0 0)] "h" (mkRecord "h" 0 0 0) (by decide) (by decide)).1 (by decide), ?_⟩
  exact ((getContext_ttl_contract DEFAULT_NANO_CONTEXT_CONFIG 10
      [("h", mkRecord "h" 0 0 0)] "h" (mkRecord "h" 0 0 0) (by decide) (by decide)).2.1 (by decide)).1

/-! ### C2: the bounded-store invariant and eviction correctness -/

theorem upsertStore_length_le (store : Store) (key : String) (value : TextContext) :
    (upsertStore store key value).length ≤ store.length + 1 := by
  induction store with
  | nil => simp [upsertStore]
  | cons kv rest ih =>
    by_cases hk : kv.1 = key
    · simp [upsertStore, hk]
    · simp only [upsertStore]
      rw [if_neg hk]
      simpa using Nat.succ_le_succ ih

theorem contextLe_trans (a b c : String × TextContext)
    (h1 : contextLe a b = true) (h2 : contextLe b c = true) : contextLe a c = true := by
  simp only [contextLe, Bool.or_eq_true, Bool.and_eq_true, decide_eq_true_eq] at *
  omega

theorem contextLe_total (a b : String × TextContext) :
    (contextLe a b || contextLe b a) = true := by
  simp only [contextLe, Bool.or_eq_true, Bool.and_eq_true, decide_eq_true_eq]
  omega

theorem contextLt_of_le_of_distinct (x y : String × TextContext)
    (hle : contextLe x y = true) (hne : pairDistinct x y) : contextLt x.2 y.2 := by
  simp only [contextLe, Bool.or_eq_true, Bool.and_eq_true, decide_eq_true_eq] at hle
  simp only [pairDistinct, ne_eq, Prod.mk.injEq, not_and] at hne
  simp only [contextLt]
  omega

theorem addContext_of_no_evict (maxContexts : Nat) (now : Int) (store : Store)
    (context : TextContext)
    (h : (upsertStore store context.textHash (putRecord now context)).length ≤ maxContexts) :
    addContext maxContexts now store context =
      upsertStore store context.textHash (putRecord now context) := by
  unfold addContext
  rw [if_neg (by omega)]

theorem addContext_length_le (maxContexts : Nat) (hmax : 0 < maxContexts) (now : Int)
    (store : Store) (context : TextContext) (hs : store.length ≤ maxContexts) :
    (addContext maxContexts now store context).length ≤ maxContexts := by
  unfold addContext
  by_cases hlen :
      (upsertStore store context.textHash (putRecord now context)).length > maxContexts
  · rw [if_pos hlen]
    unfold jsSliceNeg
    rw [if_neg hmax.ne']
    rw [List.length_drop,
      (List.mergeSort_perm (upsertStore store context.textHash (putRecord now context))
        contextLe).length_eq]
    omega
  · rw [if_neg hlen]
    omega

/-- C2: starting from a store within the `maxContexts` ceiling, any sequence of
`addContext` calls keeps the record count at most `maxContexts`; and whenever
an insertion pushes the count above the ceiling, the retained entries number
exactly `maxContexts`, all come from the post-insertion map, and — when the
`(lastUsed, usageCount)` sort keys are pairwise distinct — every evicted entry
is strictly below every retained entry in the ascending eviction ordering. -/
theorem addContext_bounded_eviction (maxContexts : Nat) (hmax : 0 < maxContexts) :
    (∀ (store : Store) (ops : List (Int × TextContext)), store.length ≤ maxContexts →
      (ops.foldl (fun st p => addContext maxContexts p.1 st p.2) store).length ≤ maxContexts) ∧
    (∀ (now : Int) (store : Store) (context : TextContext),
      (upsertStore store context.textHash (putRecord now context)).length > maxContexts →
      List.Pairwise pairDistinct (upsertStore store context.textHash (putRecord now context)) →
      (addContext maxContexts now store context).length = maxContexts ∧
      (∀ x ∈ addContext maxContexts now store context,
        x ∈ upsertStore store context.textHash (putRecord now context)) ∧
      (∀ y ∈ upsertStore store context.textHash (putRecord now context),
        y ∉ addContext maxContexts now store context →
        ∀ x ∈ addContext maxContexts now store context, contextLt y.2 x.2)) := by
  constructor
  · intro store ops
    induction ops generalizing store with
    | nil => intro hs; exact hs
    | cons op rest ih =>
      intro hs
      exact ih _ (addContext_length_le maxContexts hmax op.1 store op.2 hs)
  · intro now store context hover hdist
    set m := upsertStore store context.textHash (putRecord now context) with hm
    have hperm := List.mergeSort_perm m contextLe
    have hlen : (m.mergeSort contextLe).length = m.length := hperm.length_eq
    have hresult : addContext maxContexts now store context =
        (m.mergeSort contextLe).drop (m.length - maxContexts) := by
      unfold addContext
      rw [if_pos hover]
      unfold jsSliceNeg
      rw [if_neg hmax.ne', hlen]
    have hsplit := List.take_append_drop (m.length - maxContexts) (m.mergeSort contextLe)
    have hsorted := List.sorted_mergeSort contextLe_trans contextLe_total m
    refine ⟨?_, ?_, ?_⟩
    · rw [hresult, List.length_drop, hlen]
      omega
    · intro x hx
      rw [hresult] at hx
      exact hperm.mem_iff.mp (List.mem_of_mem_drop hx)
    · intro y hy hyout x hx
      have hy' : y ∈ m.mergeSort contextLe := hperm.mem_iff.mpr hy
      rw [← hsplit] at hy'
      have hytake : y ∈ (m.mergeSort contextLe).take (m.length - maxContexts) := by
        rcases List.mem_append.mp hy' with h | h
        · exact h
        · exact absurd (by rw [hresult]; exact h) hyout
      rw [hresult] at hx
      have hcross : contextLe y x = true := by
        have := hsorted
        rw [← hsplit] at this
        exact (List.pairwise_append.mp this).2.2 y hytake x hx
      have hdist' : List.Pairwise pairDistinct (m.mergeSort contextLe) :=
        (hperm.pairwise_iff (fun h => Ne.symm h)).mpr hdist
      have hdistcross : pairDistinct y x := by
        rw [← hsplit] at hdist'
        exact (List.pairwise_append.mp hdist').2.2 y hytake x hx
      exact contextLt_of_le_of_distinct y x hcross hdistcross

/-- Witness for C2 at concrete inputs: two inserts into a one-slot store stay
within the ceiling, and a forced eviction retains exactly one entry. -/
theorem addContext_bounded_eviction_witness :
    (([((0 : Int), mkRecord "a" 0 0 0), ((1 : Int), mkRecord "b" 0 0 0)].foldl
        (fun st p => addContext 1 p.1 st p.2) []).length ≤ 1) ∧
    (addContext 1 5 [("a", mkRecord "a" 0 0 0)] (mkRecord "b" 0 0 0)).length = 1 :=
  ⟨(addContext_bounded_eviction 1 (by decide)).1 [] _ (by decide),
   ((addContext_bounded_eviction 1 (by decide)).2 5 [("a", mkRecord "a" 0 0 0)]
      (mkRecord "b" 0 0 0) (by decide) (by decide)).1⟩

/-! ### C7: put idempotence -/

theorem upsertStore_idem (store : Store) (key : String) (value : TextContext)
    (h : lookupStore store key = some value) : upsertStore store key value = store := by
  induction store with
  | nil => simp [lookupStore] at h
  | cons kv rest ih =>
    by_cases hk : kv.1 = key
    · simp only [lookupStore] at h
      rw [if_pos hk] at h
      simp only [upsertStore]
      rw [if_pos hk]
      obtain ⟨k0, v0⟩ := kv
      simp only at hk
      injection h with h
      simp only at h
      rw [hk, ← h]
    · simp only [lookupStore] at h
      rw [if_neg hk] at h
      simp only [upsertStore]
      rw [if_neg hk, ih h]

/-- C7 counterexample: with tied `(lastUsed, usageCount)` sort keys and a
forced eviction (ceiling 1), a second identical `addContext` call changes the
store again (the two calls evict different entries); and re-putting a record
identical to a stored one resets the stored `usageCount` from 5 to 0. -/
theorem addContext_idempotent_counterexample :
    addContext 1 100
        (addContext 1 100 [("k1", mkRecord "k1" 0 0 0), ("k2", mkRecord "k2" 0 100 0)]
          (mkRecord "k1" 0 0 0))
        (mkRecord "k1" 0 0 0) ≠
      addContext 1 100 [("k1", mkRecord "k1" 0 0 0), ("k2", mkRecord "k2" 0 100 0)]
        (mkRecord "k1" 0 0 0) ∧
    lookupStore (addContext 100 100 [("k", mkRecord "k" 0 100 5)] (mkRecord "k" 0 100 5)) "k" ≠
      some (mkRecord "k" 0 100 5) := by
  constructor
  · have h1 : addContext 1 100 [("k1", mkRecord "k1" 0 0 0), ("k2", mkRecord "k2" 0 100 0)]
        (mkRecord "k1" 0 0 0) = [("k2", mkRecord "k2" 0 100 0)] := by
      simp [addContext, upsertStore, putRecord, mkRecord, jsSliceNeg, List.mergeSort,
        List.splitInTwo, List.merge, contextLe]
    rw [h1]
    have h2 : addContext 1 100 [("k2", mkRecord "k2" 0 100 0)] (mkRecord "k1" 0 0 0) =
        [("k1", putRecord 100 (mkRecord "k1" 0 0 0))] := by
      simp [addContext, upsertStore, putRecord, mkRecord, jsSliceNeg, List.mergeSort,
        List.splitInTwo, List.merge, contextLe]
    rw [h2]
    decide
  · have h3 : addContext 100 100 [("k", mkRecord "k" 0 100 5)] (mkRecord "k" 0 100 5) =
        [("k", putRecord 100 (mkRecord "k" 0 100 5))] := by
      simp [addContext, upsertStore, putRecord, mkRecord, jsSliceNeg]
    rw [h3]
    decide

/-- C7 (amended): `addContext` stores the record with `lastUsed` set to the
call time and `usageCount` reset to 0.  Consequently, a double call at one
timestamp equals a single call whenever the insertion stays within the
ceiling (no eviction pass runs), and re-putting a record identical to a
stored one leaves the store unchanged only when that record already carries
`usageCount = 0` and `lastUsed` equal to the call time. -/
theorem addContext_put_semantics (maxContexts : Nat) :
    (∀ (now : Int) (store : Store) (context : TextContext),
      (upsertStore store context.textHash (putRecord now context)).length ≤ maxContexts →
      addContext maxContexts now (addContext maxContexts now store context) context =
        addContext maxContexts now store context) ∧
    (∀ (now : Int) (store : Store) (context : TextContext),
      lookupStore store context.textHash = some context →
      context.usageCount = 0 → context.lastUsed = now → store.length ≤ maxContexts →
      addContext maxContexts now store context = store) := by
  constructor
  · intro now store context h
    have h1 := addContext_of_no_evict maxContexts now store context h
    rw [h1]
    have h2 : upsertStore (upsertStore store context.textHash (putRecord now context))
        context.textHash (putRecord now context) =
        upsertStore store context.textHash (putRecord now context) :=
      upsertStore_idem _ _ _ (lookupStore_upsert_self store _ _)
    have h3 := addContext_of_no_evict maxContexts now
      (upsertStore store context.textHash (putRecord now context)) context
      (by rw [h2]; exact h)
    rw [h3, h2]
  · intro now store context hl hu hlu hs
    have hput : putRecord now context = context := by
      obtain ⟨i, th, d, t, it, ka, m, ts, lu, uc, cf, tl⟩ := context
      simp only [putRecord]
      simp_all
    have hup : upsertStore store context.textHash (putRecord now context) = store := by
      rw [hput]
      exact upsertStore_idem _ _ _ hl
    have h4 := addContext_of_no_evict maxContexts now store context (by rw [hup]; exact hs)
    rw [h4, hup]

/-- Witness for C7 at concrete inputs. -/
theorem addContext_put_semantics_witness :
    addContext 100 7
        (addContext 100 7 [("k", mkRecord "k" 0 7 0)] (mkRecord "k" 0 7 0))
        (mkRecord "k" 0 7 0) =
      addContext 100 7 [("k", mkRecord "k" 0 7 0)] (mkRecord "k" 0 7 0) ∧
    addContext 100 7 [("k", mkRecord "k" 0 7 0)] (mkRecord "k" 0 7 0) =
      [("k", mkRecord "k" 0 7 0)] :=
  ⟨(addContext_put_semantics 100).1 7 [("k", mkRecord "k" 0 7 0)] (mkRecord "k" 0 7 0)
      (by decide),
   (addContext_put_semantics 100).2 7 [("k", mkRecord "k" 0 7 0)] (mkRecord "k" 0 7 0)
      (by decide) (by decide) (by decide) (by decide)⟩

/-! ### C4: request coalescing for concurrent generation -/

/-- C4: with the service initialized, compatible and enabled, a non-blank
in-range text, no stored record for its fingerprint and no generation yet in
flight, the first `generateContextForText` call issues the external call and
registers the in-flight promise; a second call for the same `(text, model)`
pair arriving while that promise is still registered is handed the very same
in-flight promise and issues no further external call, so exactly one
external call occurs for the pair. -/
theorem generate_coalescing (config : NanoContextConfig) (now now2 : Int) (text : String)
    (model : AIModel) (st0 : ServiceState)
    (henabled : config.enabled = true)
    (htrim : ¬ jsTrim text = "")
    (hlen : ¬ text.length > config.maxTextLength)
    (hcache : lookupStore st0.contexts (createTextHash text) = none)
    (hqueue : lookupQueue st0.queue (createTextHash text ++ "-" ++ model.id) = none) :
    (generateContextForTextStep config true true now text (some model) st0).1 =
      .started st0.nextId ∧
    (generateContextForTextStep config true true now text (some model) st0).2.externalCalls =
      (text, model) :: st0.externalCalls ∧
    (generateContextForTextStep config true true now2 text (some model)
        (generateContextForTextStep config true true now text (some model) st0).2).1 =
      .coalesced st0.nextId ∧
    (generateContextForTextStep config true true now2 text (some model)
        (generateContextForTextStep config true true now text (some model) st0).2).2 =
      (generateContextForTextStep config true true now text (some model) st0).2 := by
  have hstep1 : generateContextForTextStep config true true now text (some model) st0 =
      (.started st0.nextId,
       { st0 with
          queue := (createTextHash text ++ "-" ++ model.id, st0.nextId) :: st0.queue
          nextId := st0.nextId + 1
          externalCalls := (text, model) :: st0.externalCalls }) := by
    simp [generateContextForTextStep, henabled, htrim, hlen, hcache, hqueue]
  have hstep2 : generateContextForTextStep config true true now2 text (some model)
      (generateContextForTextStep config true true now text (some model) st0).2 =
      (.coalesced st0.nextId,
       (generateContextForTextStep config true true now text (some model) st0).2) := by
    rw [hstep1]
    simp [generateContextForTextStep, henabled, htrim, hlen, hcache, lookupQueue]
  rw [hstep2, hstep1]
  exact ⟨rfl, rfl, rfl, rfl⟩

/-- Witness for C4 at concrete inputs. -/
theorem generate_coalescing_witness :
    (generateContextForTextStep DEFAULT_NANO_CONTEXT_CONFIG true true 0 "cat dog"
        (some sampleModel) ⟨[], [], 0, []⟩).1 = .started 0 ∧
    (generateContextForTextStep DEFAULT_NANO_CONTEXT_CONFIG true true 0 "cat dog"
        (some sampleModel) ⟨[], [], 0, []⟩).2.externalCalls = [("cat dog", sampleModel)] ∧
    (generateContextForTextStep DEFAULT_NANO_CONTEXT_CONFIG true true 1 "cat dog"
        (some sampleModel)
        (generateContextForTextStep DEFAULT_NANO_CONTEXT_CONFIG true true 0 "cat dog"
          (some sampleModel) ⟨[], [], 0, []⟩).2).1 = .coalesced 0 ∧
    (generateContextForTextStep DEFAULT_NANO_CONTEXT_CONFIG true true 1 "cat dog"
        (some sampleModel)
        (generateContextForTextStep DEFAULT_NANO_CONTEXT_CONFIG true true 0 "cat dog"
          (some sampleModel) ⟨[], [], 0, []⟩).2).2 =
      (generateContextForTextStep DEFAULT_NANO_CONTEXT_CONFIG true true 0 "cat dog"
        (some sampleModel) ⟨[], [], 0, []⟩).2 :=
  generate_coalescing DEFAULT_NANO_CONTEXT_CONFIG 0 1 "cat dog" sampleModel ⟨[], [], 0, []⟩
    (by decide) (by decide) (by decide) (by decide) (by decide)

/-! ### C8: the large-text path -/

/-- C8 counterexample: a whitespace-only text strictly longer than the default
`maxTextLength` is rejected by the blank-text guard before the length
dispatch, so it does not take the large-text path (and no external call is
made). -/
theorem generate_large_text_counterexample :
    (String.mk (List.replicate 10001 ' ')).length >
      DEFAULT_NANO_CONTEXT_CONFIG.maxTextLength ∧
    generateContextForTextStep DEFAULT_NANO_CONTEXT_CONFIG true true 0
        (String.mk (List.replicate 10001 ' ')) (some sampleModel)
        ⟨[], [], 0, []⟩ =
      (.rejected, ⟨[], [], 0, []⟩) := by
  have htrim : jsTrim (String.mk (List.replicate 10001 ' ')) = "" := by
    have h1 : List.dropWhile jsIsSpace (List.replicate 10001 ' ') = [] :=
      List.dropWhile_eq_nil_iff.mpr (fun x hx => by
        rw [List.eq_of_mem_replicate hx]; decide)
    unfold jsTrim trimList
    rw [h1]
    rfl
  constructor
  · have hL : (String.mk (List.replicate 10001 ' ')).length = 10001 := by
      show (List.replicate 10001 ' ').length = 10001
      rw [List.length_replicate]
    rw [hL]
    decide
  · generalize hT : String.mk (List.replicate 10001 ' ') = T at htrim ⊢
    simp [generateContextForTextStep, htrim]

/-- C8 (amended): for a text with non-blank trim strictly longer than
`maxTextLength`, with the service initialized, compatible and enabled,
`generateContextForText` dispatches to the large-text path; there — with no
valid cached record and no in-flight generation for the original text's
fingerprint, and with an error-free, parseable summarizer response — the
external summarizer is called exactly once, on the truncated view, while the
cached record is keyed under the hash of the original untruncated text,
carries the truncation annotation in its description, and stores the
original (pre-truncation) text length. -/
theorem generate_large_text_contract (config : NanoContextConfig)
    (sendToAI : String → String → AIModel → AIResponse)
    (parseResponse : String → Option ParsedCtx) (freshId : String) (now : Int)
    (text : String) (model : AIModel) (st0 : ServiceState) (parsed : ParsedCtx)
    (henabled : config.enabled = true)
    (htrim : ¬ jsTrim text = "")
    (hlen : text.length > config.maxTextLength)
    (hcache : lookupStore st0.contexts (createTextHash text) = none)
    (hqueue : lookupQueue st0.queue (createTextHash text ++ "-" ++ model.id) = none)
    (herr : (sendToAI (smartTruncateText text config.maxTextLength)
        (buildContextGenerationPrompt (smartTruncateText text config.maxTextLength))
        model).error = none)
    (hparse : parseResponse (sendToAI (smartTruncateText text config.maxTextLength)
        (buildContextGenerationPrompt (smartTruncateText text config.maxTextLength))
        model).suggestedText = some parsed) :
    (generateContextForTextStep config true true now text (some model) st0).1 = .largeText ∧
    (generateContextForLargeText sendToAI parseResponse freshId config now text model st0).1 =
      .generated (some
        { id := freshId
          textHash := createTextHash text
          description := parsed.description ++ " (generated from truncated large text)"
          tone := parsed.tone
          intent := parsed.intent
          keyArguments := none
          model := (sendToAI (smartTruncateText text config.maxTextLength)
            (buildContextGenerationPrompt (smartTruncateText text config.maxTextLength))
            model).actualModel.getD model
          timestamp := now
          lastUsed := now
          usageCount := 0
          confidence := none
          textLength := text.length }) ∧
    lookupStore
        (generateContextForLargeText sendToAI parseResponse freshId config now text model
          st0).2.contexts (createTextHash text) =
      some
        { id := freshId
          textHash := createTextHash text
          description := parsed.description ++ " (generated from truncated large text)"
          tone := parsed.tone
          intent := parsed.intent
          keyArguments := none
          model := (sendToAI (smartTruncateText text config.maxTextLength)
            (buildContextGenerationPrompt (smartTruncateText text config.maxTextLength))
            model).actualModel.getD model
          timestamp := now
          lastUsed := now
          usageCount := 0
          confidence := none
          textLength := text.length } ∧
    (generateContextForLargeText sendToAI parseResponse freshId config now text model
        st0).2.externalCalls =
      (smartTruncateText text config.maxTextLength, model) :: st0.externalCalls := by
  have hdirect : performContextGenerationDirect sendToAI parseResponse freshId now
      (smartTruncateText text config.maxTextLength) (createTextHash text) model text.length =
      some
        { id := freshId
          textHash := createTextHash text
          description := parsed.description ++ " (generated from truncated large text)"
          tone := parsed.tone
          intent := parsed.intent
          keyArguments := none
          model := (sendToAI (smartTruncateText text config.maxTextLength)
            (buildContextGenerationPrompt (smartTruncateText text config.maxTextLength))
            model).actualModel.getD model
          timestamp := now
          lastUsed := now
          usageCount := 0
          confidence := none
          textLength := text.length } := by
    simp only [performContextGenerationDirect, herr, hparse]
  refine ⟨?_, ?_, ?_, ?_⟩
  · simp [generateContextForTextStep, henabled, htrim, hlen]
  · simp [generateContextForLargeText, hcache, hqueue, hdirect]
  · simp only [generateContextForLargeText, hcache, hqueue, hdirect]
    exact lookupStore_upsert_self _ _ _
  · simp [generateContextForLargeText, hcache, hqueue, hdirect]

/-- Witness for C8 at concrete inputs (a 7-character text against a 3-character
budget and a stub summarizer). -/
theorem generate_large_text_contract_witness :
    (generateContextForTextStep smallConfig
        true true 0 "cat dog" (some sampleModel) ⟨[], [], 0, []⟩).1 = .largeText ∧
    (generateContextForLargeText (fun _ _ _ => ⟨none, "resp", none⟩)
        (fun _ => some ⟨"a description", "formal", "documentation"⟩) "ctx-9" smallConfig 0
        "cat dog" sampleModel ⟨[], [], 0, []⟩).2.externalCalls = [("cat", sampleModel)] := by
  have h := generate_large_text_contract smallConfig
    (fun _ _ _ => ⟨none, "resp", none⟩)
    (fun _ => some ⟨"a description", "formal", "documentation"⟩) "ctx-9" 0 "cat dog"
    sampleModel ⟨[], [], 0, []⟩ ⟨"a description", "formal", "documentation"⟩
    (by decide) (by decide) (by decide) (by decide) (by decide) (by decide) (by decide)
  exact ⟨h.1, by rw [h.2.2.2]; decide⟩

/-! ### C9: prompt enhancement -/

/-- C9 counterexample: a record that fails the suitability check (description
shorter than 20 characters, tone not generic) still gets a BACKGROUND CONTEXT
block appended by `buildContextAwarePrompt`: the suitability gate does not
protect the action-prompt path. -/
theorem prompt_enhancement_counterexample :
    isContextSuitableForPrompts
        (some { mkRecord "h" 0 0 0 with description := "short" }) = false ∧
    buildContextAwarePrompt "Improve this text."
        (some { mkRecord "h" 0 0 0 with description := "short" }) ≠
      "Improve this text." := by
  constructor
  · decide
  · decide

/-- C9 (amended): `buildContextAwarePrompt` returns the original prompt
unchanged when no record is supplied or when the formatted context is blank,
and otherwise appends the delimited BACKGROUND CONTEXT block built from the
formatted context (sanitized description, plus any non-generic tone and
intent); the suitability check (description of at least 20 characters, tone
and intent not both at their generic placeholders) gates only
`enhanceCustomPrompt`, which appends a lighter "Note:" suffix built from the
context summary. -/
theorem prompt_enhancement_contract :
    (∀ prompt, buildContextAwarePrompt prompt none = prompt) ∧
    (∀ prompt context, jsTrim (formatContextForPrompt context) = "" →
      buildContextAwarePrompt prompt (some context) = prompt) ∧
    (∀ prompt context, ¬ prompt = "" → ¬ jsTrim (formatContextForPrompt context) = "" →
      buildContextAwarePrompt prompt (some context) =
        prompt ++ backgroundContextBlock (formatContextForPrompt context)) ∧
    (∀ prompt context, isContextSuitableForPrompts context = false →
      enhanceCustomPrompt prompt context = prompt) ∧
    (∀ prompt context, ¬ prompt = "" → isContextSuitableForPrompts context = true →
      ¬ createContextSummary context 100 = "" →
      enhanceCustomPrompt prompt context =
        prompt ++ "\n\nNote: This text has the following characteristics: " ++
          createContextSummary context 100) ∧
    (∀ context : TextContext, ¬ context.description = "" →
      ¬ String.mk (replaceRuns crlfTab (jsTrim context.description).data) = "" →
      ¬ context.tone = "" → ¬ context.tone = "neutral" → ¬ context.tone = "general" →
      ¬ String.mk ((jsTrim context.tone).data.map jsToLower) = "" →
      ¬ context.intent = "" → ¬ context.intent = "general purpose text" →
      ¬ jsTrim context.intent = "" →
      formatContextForPrompt context =
        String.intercalate " | "
          ["Context: " ++ String.mk (replaceRuns crlfTab (jsTrim context.description).data),
           "Tone: " ++ String.mk ((jsTrim context.tone).data.map jsToLower),
           "Purpose: " ++ jsTrim context.intent]) := by
  have hlen : ∀ s : String, ¬ s = "" → s.length > 0 := by
    intro s hs
    cases s with
    | mk data =>
      cases data with
      | nil => exact absurd rfl hs
      | cons c cs => simp [String.length]
  have hlenz : ∀ s : String, s = "" → s.length = 0 := by
    rintro s rfl; rfl
  refine ⟨?_, ?_, ?_, ?_, ?_, ?_⟩
  · intro prompt
    by_cases h : prompt = "" <;> simp [buildContextAwarePrompt, h]
  · intro prompt context hfmt
    by_cases h : prompt = ""
    · simp [buildContextAwarePrompt, h]
    · simp [buildContextAwarePrompt, h, hlenz _ hfmt]
  · intro prompt context hp hfmt
    have hfmt' : ¬ formatContextForPrompt context = "" := by
      intro h0
      exact hfmt (by rw [h0]; rfl)
    simp [buildContextAwarePrompt, hp, hfmt', Nat.pos_iff_ne_zero.mp (hlen _ hfmt)]
  · intro prompt context hsuit
    by_cases h : prompt = "" <;> simp [enhanceCustomPrompt, h, hsuit]
  · intro prompt context hp hsuit hsum
    simp [enhanceCustomPrompt, hp, hsuit, hsum]
  · intro context hd hd' ht htn htg ht' hi hig hi'
    have h1 : 0 < (replaceRuns crlfTab (jsTrim context.description).data).length := by
      rcases hq : replaceRuns crlfTab (jsTrim context.description).data with _ | ⟨c, cs⟩
      · exact absurd (by rw [hq]) hd'
      · simp
    have h2 : 0 < (jsTrim context.tone).length := by
      show 0 < (jsTrim context.tone).data.length
      rcases hq : (jsTrim context.tone).data with _ | ⟨c, cs⟩
      · exact absurd (by rw [hq]; rfl) ht'
      · simp
    simp [formatContextForPrompt, hd, hd', ht, htn, htg, ht', hi, hig, hi',
      hlen _ hi', h1, h2]

/-- Witness for C9 at concrete inputs. -/
theorem prompt_enhancement_contract_witness :
    buildContextAwarePrompt "Improve this text." (some (mkRecord "h" 0 0 0)) =
      "Improve this text." ++
        backgroundContextBlock (formatContextForPrompt (mkRecord "h" 0 0 0)) ∧
    enhanceCustomPrompt "Fix grammar." (some (mkRecord "h" 0 0 0)) =
      "Fix grammar." ++ "\n\nNote: This text has the following characteristics: " ++
        createContextSummary (some (mkRecord "h" 0 0 0)) 100 :=
  ⟨prompt_enhancement_contract.2.2.1 "Improve this text." (mkRecord "h" 0 0 0)
      (by decide) (by decide),
   prompt_enhancement_contract.2.2.2.2.1 "Fix grammar." (some (mkRecord "h" 0 0 0))
      (by decide) (by decide) (by decide)⟩

/-! ### C6: compression round trip -/

theorem lastIdxAux_spec (c : Char) (xs : List Char) : ∀ (i : Nat) (best : Int),
    lastIdxAux c xs i best = best ∨
    ∃ j : Nat, j < xs.length ∧ lastIdxAux c xs i best = (i + j : Int) ∧ xs[j]? = some c := by
  induction xs with
  | nil => intro i best; left; rfl
  | cons x xs ih =>
    intro i best
    simp only [lastIdxAux]
    rcases ih (i + 1) (if x = c then (i : Int) else best) with h | ⟨j, hj, hEq, hGet⟩
    · by_cases hx : x = c
      · right
        refine ⟨0, by simp, ?_, by simp [hx]⟩
        rw [h, if_pos hx]
        simp
      · left
        rw [h, if_neg hx]
    · right
      refine ⟨j + 1, by simpa using hj, ?_, by simpa using hGet⟩
      rw [hEq]
      push_cast
      ring

theorem jsLastIndexOf_getElem (l : List Char) (c : Char) (h : 0 ≤ jsLastIndexOf l c) :
    l[(jsLastIndexOf l c).toNat]? = some c := by
  rcases lastIdxAux_spec c l 0 (-1) with h0 | ⟨j, hj, hEq, hGet⟩
  · unfold jsLastIndexOf at h
    rw [h0] at h
    norm_num at h
  · unfold jsLastIndexOf at h ⊢
    rw [hEq]
    simpa using hGet

theorem truncateDescription_cases (d : String) (hlong : ¬ d.length ≤ 150) :
    (∃ e : Nat, e < 150 ∧ truncateDescription d = String.mk (d.data.take (e + 1)) ∧
      (d.data[e]? = some '.' ∨ d.data[e]? = some '!' ∨ d.data[e]? = some '?')) ∨
    (∃ p : Nat, p < 150 ∧ truncateDescription d = String.mk (d.data.take p) ++ "..." ∧
      d.data[p]? = some ' ') ∨
    truncateDescription d = String.mk (d.data.take 150) ++ "..." := by
  have hdlen : 150 < d.data.length := by
    have h : ¬ d.data.length ≤ 150 := hlong
    omega
  have htlen : (d.data.take 150).length = 150 := by
    rw [List.length_take]
    omega
  by_cases hs : 100 < max (jsLastIndexOf (d.data.take 150) '.')
      (max (jsLastIndexOf (d.data.take 150) '!') (jsLastIndexOf (d.data.take 150) '?'))
  · left
    have hres : truncateDescription d = String.mk ((d.data.take 150).take
        ((max (jsLastIndexOf (d.data.take 150) '.')
          (max (jsLastIndexOf (d.data.take 150) '!')
            (jsLastIndexOf (d.data.take 150) '?'))).toNat + 1)) := by
      unfold truncateDescription
      rw [if_neg hlong, if_pos hs]
    have hsome : (d.data.take 150)[(max (jsLastIndexOf (d.data.take 150) '.')
        (max (jsLastIndexOf (d.data.take 150) '!')
          (jsLastIndexOf (d.data.take 150) '?'))).toNat]? = some '.' ∨
        (d.data.take 150)[(max (jsLastIndexOf (d.data.take 150) '.')
        (max (jsLastIndexOf (d.data.take 150) '!')
          (jsLastIndexOf (d.data.take 150) '?'))).toNat]? = some '!' ∨
        (d.data.take 150)[(max (jsLastIndexOf (d.data.take 150) '.')
        (max (jsLastIndexOf (d.data.take 150) '!')
          (jsLastIndexOf (d.data.take 150) '?'))).toNat]? = some '?' := by
      rcases max_choice (jsLastIndexOf (d.data.take 150) '.')
        (max (jsLastIndexOf (d.data.take 150) '!') (jsLastIndexOf (d.data.take 150) '?')) with
        h | h
      · left
        rw [h]
        exact jsLastIndexOf_getElem _ _ (by omega)
      · rcases max_choice (jsLastIndexOf (d.data.take 150) '!')
          (jsLastIndexOf (d.data.take 150) '?') with h2 | h2
        · right; left
          rw [h, h2]
          exact jsLastIndexOf_getElem _ _ (by omega)
        · right; right
          rw [h, h2]
          exact jsLastIndexOf_getElem _ _ (by omega)
    have hlt : (max (jsLastIndexOf (d.data.take 150) '.')
        (max (jsLastIndexOf (d.data.take 150) '!')
          (jsLastIndexOf (d.data.take 150) '?'))).toNat < 150 := by
      rcases hsome with h | h | h <;>
        · rcases List.getElem?_eq_some_iff.mp h with ⟨hb, _⟩
          omega
    refine ⟨(max (jsLastIndexOf (d.data.take 150) '.')
        (max (jsLastIndexOf (d.data.take 150) '!')
          (jsLastIndexOf (d.data.take 150) '?'))).toNat, hlt, ?_, ?_⟩
    · rw [hres, List.take_take]
      congr 2
      omega
    · rcases hsome with h | h | h
      · left
        rw [List.getElem?_take] at h
        rw [← h]
        rw [if_pos hlt]
      · right; left
        rw [List.getElem?_take] at h
        rw [← h]
        rw [if_pos hlt]
      · right; right
        rw [List.getElem?_take] at h
        rw [← h]
        rw [if_pos hlt]
  · by_cases hsp : 100 < jsLastIndexOf (d.data.take 150) ' '
    · right; left
      have hres : truncateDescription d = String.mk ((d.data.take 150).take
          (jsLastIndexOf (d.data.take 150) ' ').toNat) ++ "..." := by
        unfold truncateDescription
        rw [if_neg hlong, if_neg hs, if_pos hsp]
      have hsome : (d.data.take 150)[(jsLastIndexOf (d.data.take 150) ' ').toNat]? =
          some ' ' := jsLastIndexOf_getElem _ _ (by omega)
      have hlt : (jsLastIndexOf (d.data.take 150) ' ').toNat < 150 := by
        rcases List.getElem?_eq_some_iff.mp hsome with ⟨hb, _⟩
        omega
      refine ⟨(jsLastIndexOf (d.data.take 150) ' ').toNat, hlt, ?_, ?_⟩
      · rw [hres, List.take_take]
        congr 3
        omega
      · rw [List.getElem?_take] at hsome
        rw [← hsome, if_pos hlt]
    · right; right
      unfold truncateDescription
      rw [if_neg hlong, if_neg hs, if_neg hsp]

set_option maxRecDepth 4000 in
/-- C6 counterexample: a 201-character description with no space or sentence
mark round-trips to a hard 150-character cut plus ellipsis, which is a
mid-word cut — not one of the claim's allowed boundary cuts. -/
theorem compress_roundtrip_counterexample :
    (compressContext { mkRecord "h" 0 0 0 with
        description := String.mk (List.replicate 201 'a') }).map
        (fun cc => (decompressContext cc "h").description) =
      .ok (String.mk (List.replicate 150 'a') ++ "...") ∧
    ¬ claimedDescriptionCut (String.mk (List.replicate 201 'a'))
        (String.mk (List.replicate 150 'a') ++ "...") := by
  constructor
  · rfl
  · decide

/-- C6 (amended): for a record with its `keyArguments` list present,
compression succeeds, the round trip preserves the fingerprint (the caller
re-supplies the full hash), the description is unchanged when at most 150
characters long, and otherwise is the `truncateDescription` cut of the
original: a sentence-bounded prefix (boundary after position 100), a
space-bounded prefix followed by an ellipsis, or — when neither boundary
occurs after position 100 — a hard 150-character prefix (possibly mid-word)
followed by an ellipsis. -/
theorem compress_roundtrip_contract (r : TextContext) (args : List String)
    (hargs : r.keyArguments = some args) :
    ∃ cc, compressContext r = .ok cc ∧
      (decompressContext cc r.textHash).textHash = r.textHash ∧
      (decompressContext cc r.textHash).description = truncateDescription r.description ∧
      (r.description.length ≤ 150 →
        (decompressContext cc r.textHash).description = r.description) ∧
      (¬ r.description.length ≤ 150 →
        ((∃ e : Nat, e < 150 ∧
            (decompressContext cc r.textHash).description =
              String.mk (r.description.data.take (e + 1)) ∧
            (r.description.data[e]? = some '.' ∨ r.description.data[e]? = some '!' ∨
              r.description.data[e]? = some '?')) ∨
         (∃ p : Nat, p < 150 ∧
            (decompressContext cc r.textHash).description =
              String.mk (r.description.data.take p) ++ "..." ∧
            r.description.data[p]? = some ' ') ∨
         (decompressContext cc r.textHash).description =
           String.mk (r.description.data.take 150) ++ "...")) := by
  have hcc : compressContext r = .ok
      { v := 1
        h := r.textHash.take 12
        d := truncateDescription r.description
        t := (mapGet TONE_ABBREVIATIONS r.tone).getD (r.tone.take 3)
        i := (mapGet INTENT_ABBREVIATIONS r.intent).getD (r.intent.take 3)
        a := (args.take 3).map (fun arg => arg.take 30)
        m := r.model.id
        ts := r.timestamp
        lu := r.lastUsed
        u := r.usageCount
        c := r.confidence.map round2
        l := r.textLength } := by
    unfold compressContext
    rw [hargs]
  refine ⟨_, hcc, ?_, ?_, ?_, ?_⟩
  · simp [decompressContext]
  · simp [decompressContext]
  · intro hshort
    simp only [decompressContext]
    unfold truncateDescription
    rw [if_pos hshort]
  · intro hlong
    simp only [decompressContext]
    exact truncateDescription_cases r.description hlong

/-- Witness for C6 at a concrete record with a short description. -/
theorem compress_roundtrip_contract_witness :
    (compressContext (mkRecord "h" 0 0 0)).map
        (fun cc => (decompressContext cc (mkRecord "h" 0 0 0).textHash).textHash) =
      .ok (mkRecord "h" 0 0 0).textHash ∧
    (compressContext (mkRecord "h" 0 0 0)).map
        (fun cc => (decompressContext cc (mkRecord "h" 0 0 0).textHash).description) =
      .ok (mkRecord "h" 0 0 0).description := by
  obtain ⟨cc, hcc, hth, _, hshort, _⟩ :=
    compress_roundtrip_contract (mkRecord "h" 0 0 0) ["arg"] (by decide)
  rw [hcc]
  exact ⟨by simp [Except.map, hth], by simp [Except.map, hshort (by decide)]⟩

/-! ### C10: batch compression silently drops service-generated records -/

theorem except_isOk_error (e : String) :
    (Except.error e : Except String CompressedContext).isOk = false := rfl

theorem except_isOk_ok (cc : CompressedContext) :
    (Except.ok cc : Except String CompressedContext).isOk = true := rfl

theorem compressContextBatch_mem (contexts : List (String × TextContext)) (k : String)
    (cc : CompressedContext) :
    (k, cc) ∈ compressContextBatch contexts ↔
      ∃ c, (k, c) ∈ contexts ∧ compressContext c = .ok cc := by
  unfold compressContextBatch
  rw [List.mem_filterMap]
  constructor
  · rintro ⟨⟨k', c⟩, hmem, hf⟩
    rcases hok : compressContext c with e | cc'
    · rw [hok] at hf
      simp at hf
    · rw [hok] at hf
      simp only [Option.some.injEq, Prod.mk.injEq] at hf
      obtain ⟨hk, hcc⟩ := hf
      exact ⟨c, by rw [← hk]; exact hmem, by rw [hok, hcc]⟩
  · rintro ⟨c, hmem, hok⟩
    exact ⟨(k, c), hmem, by rw [hok]⟩

/-- C10: batch compression never fails as a whole — each record whose
individual compression throws is silently omitted and all others are kept;
every record constructed by `performContextGeneration` or
`performContextGenerationDirect` lacks the `keyArguments` field, so
compressing it throws; hence the persistence path that batch-compresses the
contexts map before saving drops every service-generated record from durable
storage. -/
theorem compressContextBatch_drops_service_records :
    (∀ contexts : List (String × TextContext),
      (compressContextBatch contexts).length +
        (contexts.filter (fun kv => !(compressContext kv.2).isOk)).length =
        contexts.length) ∧
    (∀ (freshId : String) (now : Int) (textHash : String) (parsed : ParsedCtx)
        (modelUsed : AIModel) (textLength : Nat),
      (compressContext
        (performContextGenerationRecord freshId now textHash parsed modelUsed
          textLength)).isOk = false) ∧
    (∀ (sendToAI : String → String → AIModel → AIResponse)
        (parseResponse : String → Option ParsedCtx) (freshId : String) (now : Int)
        (truncatedText originalTextHash : String) (model : AIModel)
        (originalTextLength : Nat) (record : TextContext),
      performContextGenerationDirect sendToAI parseResponse freshId now truncatedText
          originalTextHash model originalTextLength = some record →
      (compressContext record).isOk = false) ∧
    (∀ (contexts : List (String × TextContext)) (k : String),
      (∀ c, (k, c) ∈ contexts → (compressContext c).isOk = false) →
      ∀ cc, (k, cc) ∉ compressContextBatch contexts) := by
  refine ⟨?_, ?_, ?_, ?_⟩
  · intro contexts
    induction contexts with
    | nil => rfl
    | cons kv rest ih =>
      rcases hok : compressContext kv.2 with e | cc
      · simp only [compressContextBatch, List.filterMap_cons, hok, List.filter_cons,
          except_isOk_error, Bool.not_false, if_true, List.length_cons]
        simp only [compressContextBatch] at ih
        omega
      · simp only [compressContextBatch, List.filterMap_cons, hok, List.filter_cons,
          except_isOk_ok, Bool.not_true, List.length_cons]
        simp only [compressContextBatch] at ih
        simp only [Bool.false_eq_true, if_false]
        omega
  · intro freshId now textHash parsed modelUsed textLength
    rfl
  · intro sendToAI parseResponse freshId now truncatedText originalTextHash model
      originalTextLength record h
    simp only [performContextGenerationDirect] at h
    rcases herr : (sendToAI truncatedText (buildContextGenerationPrompt truncatedText)
        model).error with _ | e
    · rw [herr] at h
      simp only at h
      rcases hp : parseResponse (sendToAI truncatedText
          (buildContextGenerationPrompt truncatedText) model).suggestedText with _ | parsed
      · rw [hp] at h
        simp at h
      · rw [hp] at h
        simp only [Option.some.injEq] at h
        rw [← h]
        rfl
    · rw [herr] at h
      simp at h
  · intro contexts k hall cc hmem
    obtain ⟨c, hc, hok⟩ := (compressContextBatch_mem contexts k cc).mp hmem
    have hbad := hall c hc
    rw [hok, except_isOk_ok cc] at hbad
    simp at hbad

/-- Witness for C10 at concrete inputs: a store holding only a
service-generated record batch-compresses to the empty map. -/
theorem compressContextBatch_drops_service_records_witness :
    (compressContextBatch
        [("k", performContextGenerationRecord "id" 0 "k"
          ⟨"a long enough description", "formal", "documentation"⟩ sampleModel 5)]).length +
      ([("k", performContextGenerationRecord "id" 0 "k"
          ⟨"a long enough description", "formal", "documentation"⟩ sampleModel 5)].filter
        (fun kv => !(compressContext kv.2).isOk)).length = 1 ∧
    (compressContext
      (performContextGenerationRecord "id" 0 "k"
        ⟨"a long enough description", "formal", "documentation"⟩ sampleModel 5)).isOk =
      false ∧
    ("k", emptyCompressed) ∉
      compressContextBatch
        [("k", performContextGenerationRecord "id" 0 "k"
          ⟨"a long enough description", "formal", "documentation"⟩ sampleModel 5)] :=
  ⟨compressContextBatch_drops_service_records.1 _,
   compressContextBatch_drops_service_records.2.1 "id" 0 "k" _ sampleModel 5,
   compressContextBatch_drops_service_records.2.2.2 _ "k"
     (fun c hc => by
       simp only [List.mem_cons, List.not_mem_nil, or_false, Prod.mk.injEq] at hc
       rw [hc.2]
       rfl) _⟩

end Ursula
